import Mathlib

/-!
# road-deploy: the deployment engine of `src/server.js`

A shallow embedding of the request handlers of `src/server.js` and the
properties of the deployment pipeline proved about them.

The handlers are asynchronous JavaScript functions whose observable behaviour
is the sequence of effects they issue (child processes, file writes, HTTP
calls, console output, the HTTP response).  A handler is embedded as a value
of `Act`, which carries the effects issued so far and either a result or the
message of a thrown `Error`.  What the outside world answers to each effect is
an input of the model (`Outcomes`): every call site of the handler runs at
most once per request, so one outcome per call site describes every possible
environment.
-/

namespace RoadDeploy

/-! ## Data model -/

/-- Process configuration, lines 19-22 of `src/server.js`. -/
structure Config where
  DEPLOY_BASE_DIR : String
  TARGET_HOST : String
  REGISTRY_API : String
  deriving DecidableEq, Repr

/-- JavaScript `a || b` on an environment variable that is absent or a string. -/
def orDefault (v : Option String) (d : String) : String :=
  match v with
  | some s => if s = "" then d else s
  | none => d

/-- The configuration as read from `process.env`, with the defaults of lines 19-22. -/
def Config.ofEnv (baseDir targetHost registryApi : Option String) : Config :=
  { DEPLOY_BASE_DIR := orDefault baseDir "/tmp/road-deploys"
    TARGET_HOST := orDefault targetHost "aria"
    REGISTRY_API := orDefault registryApi "http://lucidia:8080" }

/-- The call sites of `execAsync` in `src/server.js`, named by what they run. -/
inductive Site
  /-- line 63, `git clone` -/
  | clone
  /-- line 67, the caller-supplied build command -/
  | build
  /-- line 74, `ssh ... mkdir -p` -/
  | mkdir
  /-- line 78, `rsync` -/
  | rsync
  /-- line 219, `scp` of the staged configuration -/
  | scp
  /-- line 220, `ssh ... sudo mv` -/
  | mv
  /-- line 221, `ssh ... sudo ln -sf` -/
  | ln
  /-- line 224, `ssh ... sudo nginx -t` -/
  | nginxTest
  /-- line 230, `ssh ... sudo certbot` -/
  | certbot
  /-- line 87, `ssh ... sudo nginx -s reload` -/
  | reload
  /-- line 90, `rm -rf` on the success path -/
  | cleanup
  /-- line 115, `rm -rf` in the catch block -/
  | cleanupOnFailure
  deriving DecidableEq, Repr

/-- What `child_process.exec` hands to its callback: `(error, stdout, stderr)`;
`error` is `null` (here `none`) or an `Error` with a message. -/
structure ExecResult where
  error : Option String
  stdout : String
  stderr : String
  deriving DecidableEq, Repr

/-- A JSON scalar as it occurs in the bodies this server sends. -/
inductive JVal
  | str (s : String)
  | bool (b : Bool)
  deriving DecidableEq, Repr

/-- A flat JSON object: the fields in the order they are written. -/
abbrev Body := List (String × JVal)

/-- The `repository` object of a webhook payload; a field is absent or a string. -/
structure Repository where
  clone_url : Option String
  name : Option String
  deriving DecidableEq, Repr

/-- The variables captured by the callback the webhook handler schedules
(lines 255-268): `repository`, `repo_url` and `branch`. -/
structure Trigger where
  repository : Repository
  repo_url : Option String
  branch : String
  deriving DecidableEq, Repr

/-- The console methods used by the server. -/
inductive Level
  | log
  | warn
  | error
  deriving DecidableEq, Repr

/-- One observable effect of a handler. -/
inductive Effect
  /-- `uuidv4()` was called and returned `id` -/
  | uuid (id : String)
  /-- `console.log` / `console.warn` / `console.error` with these arguments -/
  | console (level : Level) (args : List String)
  /-- `exec(command, {cwd})` issued from call site `site` -/
  | exec (site : Site) (command : String) (cwd : Option String)
  /-- `fs.writeFile(file, content)` -/
  | writeFile (file : String) (content : String)
  /-- `axios.post(url, body)` -/
  | post (url : String) (body : Body)
  /-- `setTimeout(callback, ms)`: the callback of lines 255-268 was scheduled -/
  | setTimeout (callback : Trigger) (ms : Nat)
  /-- `res.status(status).json(body)` -/
  | respond (status : Nat) (body : Body)
  deriving DecidableEq, Repr

/-- What the environment answers during one run of the deploy handler. -/
structure Outcomes where
  /-- the value returned by `uuidv4()` -/
  uuid : String
  /-- the callback arguments of the `exec` issued at each call site -/
  exec : Site → ExecResult
  /-- `fs.writeFile` at line 216: `none` when it resolves, the error message when it rejects -/
  writeFile : Option String
  /-- `axios.post` at line 93: `none` when it resolves, the error message when it rejects -/
  registry : Option String

/-- The body of `POST /api/deploy`; a field is absent (`undefined`) or a JSON string. -/
structure DeployRequest where
  domain : Option String
  repo_url : Option String
  branch : Option String
  build_command : Option String
  deploy_path : Option String
  deriving DecidableEq, Repr

/-- The body of `POST /api/webhook/github`. -/
structure WebhookPayload where
  repository : Option Repository
  ref : Option String
  deriving DecidableEq, Repr

/-! ## The effect monad -/

/-- An asynchronous computation that has run: the effects it issued, in order,
and its result, `error msg` standing for a thrown `Error` with that message. -/
structure Act (α : Type) where
  trace : List Effect
  result : Except String α

namespace Act

/-- A computation that issues nothing and returns `a`. -/
protected def pure {α : Type} (a : α) : Act α := ⟨[], .ok a⟩

/-- Sequencing (`await m; f`): `f` runs only when `m` did not throw. -/
protected def bind {α β : Type} (m : Act α) (f : α → Act β) : Act β :=
  match m.result with
  | .ok a => ⟨m.trace ++ (f a).trace, (f a).result⟩
  | .error e => ⟨m.trace, .error e⟩

/-- Throwing `new Error(msg)`. -/
protected def throw {α : Type} (msg : String) : Act α := ⟨[], .error msg⟩

/-- A block `try { m } catch (error) { h error.message }`. -/
protected def tryCatch {α : Type} (m : Act α) (h : String → Act α) : Act α :=
  match m.result with
  | .ok a => ⟨m.trace, .ok a⟩
  | .error e => ⟨m.trace ++ (h e).trace, (h e).result⟩

instance : Monad Act where
  pure := Act.pure
  bind := Act.bind

instance : MonadExcept String Act where
  throw := Act.throw
  tryCatch := Act.tryCatch

end Act

/-- Issue one effect. -/
def emit (e : Effect) : Act Unit := ⟨[e], .ok ()⟩

/-! ## Library functions used by the handlers -/

/-- JavaScript truthiness of a value that is `undefined` or a string. -/
def truthy (v : Option String) : Bool :=
  match v with
  | some s => s != ""
  | none => false

/-- A destructuring default `{ x = d }`: it applies to `undefined` only. -/
def withDefault (v : Option String) (d : String) : String :=
  match v with
  | some s => s
  | none => d

/-- The text a template literal gives a value that is `undefined` or a string. -/
def jsStr (v : Option String) : String :=
  match v with
  | some s => s
  | none => "undefined"

/-- The pieces of a path between its `/` separators (JavaScript `split('/')`). -/
def splitSlash : List Char → List (List Char)
  | [] => [[]]
  | c :: cs =>
    match splitSlash cs with
    | [] => if c = '/' then [[], []] else [[c]]
    | seg :: rest => if c = '/' then [] :: seg :: rest else (c :: seg) :: rest

/-- The segment walk of Node's `normalizeString`: `acc` holds the segments kept
so far, last one first. -/
def normalizeSegs (allowAboveRoot : Bool) : List (List Char) → List (List Char) → List (List Char)
  | acc, [] => acc.reverse
  | acc, seg :: rest =>
    if seg = [] ∨ seg = ['.'] then normalizeSegs allowAboveRoot acc rest
    else if seg = ['.', '.'] then
      match acc with
      | [] => normalizeSegs allowAboveRoot (if allowAboveRoot then [seg] else []) rest
      | last :: acc' =>
        if last = ['.', '.'] then
          normalizeSegs allowAboveRoot (if allowAboveRoot then seg :: acc else acc) rest
        else normalizeSegs allowAboveRoot acc' rest
    else normalizeSegs allowAboveRoot (seg :: acc) rest

/-- Node's `path.posix.normalize`. -/
def pathNormalize (p : String) : String :=
  if p = "" then "."
  else
    let isAbsolute := p.data.head? = some '/'
    let trailingSeparator := p.data.getLast? = some '/'
    let segs := normalizeSegs (!isAbsolute) [] (splitSlash p.data)
    let body := String.mk (List.intercalate ['/'] segs)
    if body = "" then
      if isAbsolute then "/" else if trailingSeparator then "./" else "."
    else
      let body := if trailingSeparator then body ++ "/" else body
      if isAbsolute then "/" ++ body else body

/-- Node's `path.posix.join` of two arguments. -/
def pathJoin (a b : String) : String :=
  if a = "" then (if b = "" then "." else pathNormalize b)
  else if b = "" then pathNormalize a
  else pathNormalize (a ++ "/" ++ b)

/-- The first occurrence of `pat` removed from a character list. -/
def removeFirst (pat : List Char) : List Char → List Char
  | [] => []
  | c :: cs => if pat.isPrefixOf (c :: cs) then (c :: cs).drop pat.length
               else c :: removeFirst pat cs

/-- JavaScript `s.replace(pat, '')` for a string pattern: only the first
occurrence is replaced. -/
def replaceFirstWithEmpty (s pat : String) : String :=
  String.mk (removeFirst pat.data s.data)

/-! ## Helper functions of `src/server.js` -/

/-- The function `execAsync` (lines 172-182), called from call site `site`: it
rejects with `new Error(stderr || error.message)` when `exec` reports an error
and resolves with the captured standard output otherwise. -/
def execAsync (o : Outcomes) (site : Site) (command : String) (cwd : Option String) :
    Act String :=
  ⟨[Effect.exec site command cwd],
    match (o.exec site).error with
    | some message =>
      .error (if (o.exec site).stderr ≠ "" then (o.exec site).stderr else message)
    | none => .ok (o.exec site).stdout⟩

/-- The call `fs.writeFile(file, content)` of line 216. -/
def fsWriteFile (o : Outcomes) (file content : String) : Act Unit :=
  ⟨[Effect.writeFile file content],
    match o.writeFile with
    | some message => .error message
    | none => .ok ()⟩

/-- The call `axios.post(url, body)` with the given outcome. -/
def axiosPost (outcome : Option String) (url : String) (body : Body) : Act Unit :=
  ⟨[Effect.post url body],
    match outcome with
    | some message => .error message
    | none => .ok ()⟩

/-- The call `uuidv4()`. -/
def uuidv4 (o : Outcomes) : Act String := ⟨[Effect.uuid o.uuid], .ok o.uuid⟩

/-- The proxy configuration text of lines 185-212. -/
def nginxConfig (domain deployDir : String) : String :=
  "\n" ++ String.intercalate "\n" [
    "server \x7b",
    "    listen 80;",
    "    server_name " ++ domain ++ ";",
    "",
    "    root " ++ deployDir ++ ";",
    "    index index.html index.htm;",
    "",
    "    # Security headers",
    "    add_header X-Frame-Options \"SAMEORIGIN\" always;",
    "    add_header X-Content-Type-Options \"nosniff\" always;",
    "    add_header X-XSS-Protection \"1; mode=block\" always;",
    "",
    "    # Gzip compression",
    "    gzip on;",
    "    gzip_types text/plain text/css application/json application/javascript text/xml application/xml application/xml+rss text/javascript;",
    "",
    "    location / \x7b",
    "        try_files $uri $uri/ /index.html;",
    "    \x7d",
    "",
    "    # Cache static assets",
    "    location ~* \\.(jpg|jpeg|png|gif|ico|css|js|svg|woff|woff2|ttf|eot)$ \x7b",
    "        expires 1y;",
    "        add_header Cache-Control \"public, immutable\";",
    "    \x7d",
    "\x7d"] ++ "\n"

/-- The function `configureNginx` (lines 184-225). -/
def configureNginx (cfg : Config) (o : Outcomes) (domain deployDir : String) : Act Unit := do
  let configFile := "/tmp/nginx-" ++ domain ++ ".conf"
  fsWriteFile o configFile (nginxConfig domain deployDir)
  let _ ← execAsync o Site.scp
    ("scp " ++ configFile ++ " pi@" ++ cfg.TARGET_HOST ++ ":/tmp/") none
  let _ ← execAsync o Site.mv
    ("ssh pi@" ++ cfg.TARGET_HOST ++ " \"sudo mv /tmp/nginx-" ++ domain
      ++ ".conf /etc/nginx/sites-available/" ++ domain ++ "\"") none
  let _ ← execAsync o Site.ln
    ("ssh pi@" ++ cfg.TARGET_HOST ++ " \"sudo ln -sf /etc/nginx/sites-available/" ++ domain
      ++ " /etc/nginx/sites-enabled/" ++ domain ++ "\"") none
  let _ ← execAsync o Site.nginxTest
    ("ssh pi@" ++ cfg.TARGET_HOST ++ " \"sudo nginx -t\"") none

/-- The function `generateSSL` (lines 227-236). -/
def generateSSL (cfg : Config) (o : Outcomes) (domain : String) : Act Unit :=
  tryCatch
    (do
      let _ ← execAsync o Site.certbot
        ("ssh pi@" ++ cfg.TARGET_HOST ++ " \"sudo certbot --nginx -d " ++ domain
          ++ " --non-interactive --agree-tos --email admin@blackroad.io\"") none
      emit (Effect.console Level.log ["✅ SSL certificate generated for " ++ domain]))
    (fun message =>
      emit (Effect.console Level.warn
        ["⚠️  SSL generation failed for " ++ domain ++ ": " ++ message]))

/-! ## The deploy handler -/

/-- The `try` block of the deploy handler (lines 61-108). -/
def deployTry (cfg : Config) (o : Outcomes)
    (domain repo_url branch build_command deploy_path deploymentId workdir : String) :
    Act Unit := do
  -- Step 1: Clone repository
  emit (Effect.console Level.log ["[" ++ deploymentId ++ "] Cloning " ++ repo_url ++ "..."])
  let _ ← execAsync o Site.clone
    ("git clone -b " ++ branch ++ " " ++ repo_url ++ " " ++ workdir) none
  -- Step 2: Run build command
  emit (Effect.console Level.log ["[" ++ deploymentId ++ "] Building project..."])
  let _ ← execAsync o Site.build build_command (some workdir)
  -- Step 3: Sync to the target host
  emit (Effect.console Level.log
    ["[" ++ deploymentId ++ "] Deploying to " ++ cfg.TARGET_HOST ++ "..."])
  let deployDir := "/home/pi/static-sites/" ++ domain
  let _ ← execAsync o Site.mkdir
    ("ssh pi@" ++ cfg.TARGET_HOST ++ " \"mkdir -p " ++ deployDir ++ "\"") none
  let sourceDir := pathJoin workdir deploy_path
  let _ ← execAsync o Site.rsync
    ("rsync -avz --delete " ++ sourceDir ++ "/ pi@" ++ cfg.TARGET_HOST ++ ":" ++ deployDir
      ++ "/") none
  -- Step 4: Configure nginx
  configureNginx cfg o domain deployDir
  -- Step 5: Generate SSL certificate
  generateSSL cfg o domain
  -- Step 6: Reload nginx
  let _ ← execAsync o Site.reload
    ("ssh pi@" ++ cfg.TARGET_HOST ++ " \"sudo nginx -s reload\"") none
  -- Step 7: Cleanup
  let _ ← execAsync o Site.cleanup ("rm -rf " ++ workdir) none
  -- Step 8: Log to registry
  axiosPost o.registry (cfg.REGISTRY_API ++ "/api/deployments")
    [("domain", JVal.str domain), ("repo_url", JVal.str repo_url),
      ("branch", JVal.str branch), ("build_command", JVal.str build_command),
      ("deploy_path", JVal.str deploy_path), ("status", JVal.str "deployed")]
  emit (Effect.respond 200
    [("success", JVal.bool true), ("deployment_id", JVal.str deploymentId),
      ("domain", JVal.str domain), ("url", JVal.str ("https://" ++ domain)),
      ("message", JVal.str "Deployment successful")])

/-- The `catch` block of the deploy handler (lines 110-123); `message` is
`error.message`. -/
def deployCatch (o : Outcomes) (deploymentId workdir message : String) : Act Unit := do
  emit (Effect.console Level.error ["[" ++ deploymentId ++ "] Deployment failed:", message])
  -- Cleanup on failure
  tryCatch
    (do let _ ← execAsync o Site.cleanupOnFailure ("rm -rf " ++ workdir) none)
    (fun _ => pure ())
  emit (Effect.respond 500
    [("success", JVal.bool false), ("deployment_id", JVal.str deploymentId),
      ("error", JVal.str message)])

/-- The handler of `POST /api/deploy` (lines 41-124). -/
def deploy (cfg : Config) (o : Outcomes) (req : DeployRequest) : Act Unit :=
  let branch := withDefault req.branch "main"
  let build_command := withDefault req.build_command "npm run build"
  let deploy_path := withDefault req.deploy_path "dist"
  if !truthy req.domain || !truthy req.repo_url then
    emit (Effect.respond 400
      [("success", JVal.bool false), ("error", JVal.str "domain and repo_url are required")])
  else do
    let domain := jsStr req.domain
    let repo_url := jsStr req.repo_url
    let deploymentId ← uuidv4 o
    let workdir := pathJoin cfg.DEPLOY_BASE_DIR deploymentId
    tryCatch
      (deployTry cfg o domain repo_url branch build_command deploy_path deploymentId workdir)
      (fun message => deployCatch o deploymentId workdir message)

/-! ## The webhook handler -/

/-- A JSON object field that `JSON.stringify` omits when its value is `undefined`. -/
def optField (key : String) (v : Option String) : Body :=
  match v with
  | some s => [(key, JVal.str s)]
  | none => []

/-- The callback scheduled by the webhook handler (lines 255-268); `posted` is
the outcome of its `axios.post`. -/
def webhookCallback (t : Trigger) (posted : Option String) : Act Unit :=
  tryCatch
    (do
      -- Look up domain from repository name
      let domain := jsStr t.repository.name ++ ".blackroad.io"
      axiosPost posted "http://localhost:9000/api/deploy"
        ([("domain", JVal.str domain)] ++ optField "repo_url" t.repo_url
          ++ [("branch", JVal.str t.branch)]))
    (fun message =>
      emit (Effect.console Level.error ["Webhook deployment failed:", message]))

/-- The handler of `POST /api/webhook/github` (lines 242-271), up to its response. -/
def webhook (p : WebhookPayload) : Act Unit :=
  match p.repository with
  | none =>
    emit (Effect.respond 400
      [("success", JVal.bool false), ("error", JVal.str "Invalid webhook payload")])
  | some repository =>
    if !truthy p.ref then
      emit (Effect.respond 400
        [("success", JVal.bool false), ("error", JVal.str "Invalid webhook payload")])
    else do
      let repo_url := repository.clone_url
      let branch := replaceFirstWithEmpty (jsStr p.ref) "refs/heads/"
      emit (Effect.console Level.log
        ["🔔 GitHub webhook received: " ++ jsStr repo_url ++ " (" ++ branch ++ ")"])
      -- Trigger deployment (async, don't wait)
      emit (Effect.setTimeout ⟨repository, repo_url, branch⟩ 100)
      emit (Effect.respond 200
        [("success", JVal.bool true), ("message", JVal.str "Webhook received")])

/-- The string value of a field of a JSON object, `undefined` when it has none. -/
def Body.field (b : Body) (key : String) : Option String :=
  match b with
  | [] => none
  | (k, v) :: rest =>
    if k = key then
      match v with
      | JVal.str s => some s
      | JVal.bool _ => none
    else Body.field rest key

/-- The destructuring of `req.body` at lines 42-48, before defaults. -/
def DeployRequest.ofBody (b : Body) : DeployRequest :=
  { domain := Body.field b "domain"
    repo_url := Body.field b "repo_url"
    branch := Body.field b "branch"
    build_command := Body.field b "build_command"
    deploy_path := Body.field b "deploy_path" }

/-- The callbacks scheduled in a trace, in order. -/
def scheduled : List Effect → List Trigger
  | [] => []
  | Effect.setTimeout t _ :: rest => t :: scheduled rest
  | _ :: rest => scheduled rest

/-- The deploy requests posted to `/api/deploy` in a trace, in order. -/
def deployPosts : List Effect → List DeployRequest
  | [] => []
  | Effect.post url body :: rest =>
    if url = "http://localhost:9000/api/deploy" then
      DeployRequest.ofBody body :: deployPosts rest
    else deployPosts rest
  | _ :: rest => deployPosts rest

/-- Everything one webhook request causes: the handler up to its response, and
then the scheduled callbacks, each with `posted` as the outcome of its post. -/
def webhookRun (p : WebhookPayload) (posted : Option String) : List Effect :=
  (webhook p).trace ++
    ((scheduled (webhook p).trace).map (fun t => (webhookCallback t posted).trace)).flatten

/-! ## Reading a trace -/

/-- The responses sent in a trace. -/
def responses : List Effect → List (Nat × Body)
  | [] => []
  | Effect.respond status body :: rest => (status, body) :: responses rest
  | _ :: rest => responses rest

/-- The call sites whose command was issued in a trace, in order. -/
def sites : List Effect → List Site
  | [] => []
  | Effect.exec site _ _ :: rest => site :: sites rest
  | _ :: rest => sites rest

/-- True for console output, false for every other effect. -/
def Effect.isConsole : Effect → Bool
  | Effect.console _ _ => true
  | _ => false

/-- The trace without its console output: the commands, file writes, HTTP
calls and the response. -/
def actions (trace : List Effect) : List Effect :=
  trace.filter (fun e => !e.isConsole)

/-- Two computations that differ in their console output at most. -/
def Same {α : Type} (m₁ m₂ : Act α) : Prop :=
  actions m₁.trace = actions m₂.trace ∧ m₁.result = m₂.result

/-- The environment `o` with the outcome at one call site replaced by `r`. -/
def Outcomes.withExec (o : Outcomes) (site : Site) (r : ExecResult) : Outcomes :=
  { o with exec := fun s => if s = site then r else o.exec s }

/-- The environment `o` with the outcome of the registry call replaced. -/
def Outcomes.withRegistry (o : Outcomes) (r : Option String) : Outcomes :=
  { o with registry := r }

/-- The effects of a trace issued before its first response. -/
def beforeResponse (trace : List Effect) : List Effect :=
  trace.takeWhile (fun e => match e with
    | Effect.respond _ _ => false
    | _ => true)

/-- Every command of the pipeline other than the certificate command exits
normally, and the staging file is written: fetch, build, sync, routing
configuration, reload and cleanup all succeed. -/
def Outcomes.stagesSucceed (o : Outcomes) : Prop :=
  (o.exec Site.clone).error = none ∧ (o.exec Site.build).error = none ∧
  (o.exec Site.mkdir).error = none ∧ (o.exec Site.rsync).error = none ∧
  o.writeFile = none ∧ (o.exec Site.scp).error = none ∧
  (o.exec Site.mv).error = none ∧ (o.exec Site.ln).error = none ∧
  (o.exec Site.nginxTest).error = none ∧ (o.exec Site.reload).error = none ∧
  (o.exec Site.cleanup).error = none

/-- The failure response of the deploy handler (lines 118-122). -/
def failureResponse (deploymentId message : String) : Nat × Body :=
  (500, [("success", JVal.bool false), ("deployment_id", JVal.str deploymentId),
    ("error", JVal.str message)])

/-- The success response of the deploy handler (lines 102-108). -/
def successResponse (deploymentId domain : String) : Nat × Body :=
  (200, [("success", JVal.bool true), ("deployment_id", JVal.str deploymentId),
    ("domain", JVal.str domain), ("url", JVal.str ("https://" ++ domain)),
    ("message", JVal.str "Deployment successful")])

/-- The string `pat` occurs somewhere in `s`. -/
def occursIn (pat s : String) : Prop := pat.data <:+: s.data

/-! ## Concrete inputs -/

/-- The configuration of a process started with an empty environment. -/
def demoConfig : Config := Config.ofEnv none none none

/-- The request of the spec's Scenario A. -/
def demoRequest : DeployRequest :=
  { domain := some "demo.example.org"
    repo_url := some "https://git.example/demo.git"
    branch := none
    build_command := none
    deploy_path := none }

/-- A command that exits normally and prints nothing. -/
def exitZero : ExecResult := { error := none, stdout := "", stderr := "" }

/-- A command that exits with status 1 after writing `diagnostic` to standard error. -/
def exitOne (diagnostic : String) : ExecResult :=
  { error := some "Command failed", stdout := "", stderr := diagnostic }

/-- An environment in which every command, the file write and the registry call succeed. -/
def allSucceed : Outcomes :=
  { uuid := "3f2a", exec := fun _ => exitZero, writeFile := none, registry := none }

/-! # Proofs -/

/-! ## Reading traces -/

theorem sites_append (a b : List Effect) : sites (a ++ b) = sites a ++ sites b := by
  induction a with
  | nil => rfl
  | cons e a ih => cases e <;> simp [sites, ih]

theorem responses_append (a b : List Effect) :
    responses (a ++ b) = responses a ++ responses b := by
  induction a with
  | nil => rfl
  | cons e a ih => cases e <;> simp [responses, ih]

theorem responses_actions (l : List Effect) : responses (actions l) = responses l := by
  induction l with
  | nil => rfl
  | cons e l ih =>
    cases e <;> simp_all [responses, actions, Effect.isConsole, List.filter]

theorem beforeResponse_append (a b : List Effect) (h : responses a = []) :
    beforeResponse (a ++ b) = a ++ beforeResponse b := by
  induction a with
  | nil => rfl
  | cons e a ih =>
    cases e <;> simp_all [responses, beforeResponse, List.takeWhile]

theorem responses_eq_nil_of_forall (l : List Effect)
    (h : ∀ e ∈ l, (match e with
      | Effect.respond _ _ => false
      | _ => true) = true) : responses l = [] := by
  induction l with
  | nil => rfl
  | cons e l ih =>
    cases e <;> simp_all [responses]

theorem mem_takeWhile_split {α : Type} (p : α → Bool) (x : α) (l : List α)
    (h : x ∈ l.takeWhile p) :
    ∃ pre post, l = pre ++ x :: post ∧ ∀ y ∈ pre, p y = true := by
  induction l with
  | nil => simp at h
  | cons a l ih =>
    rw [List.takeWhile_cons] at h
    by_cases hp : p a = true
    · rw [if_pos hp] at h
      rcases List.mem_cons.mp h with rfl | h
      · exact ⟨[], l, rfl, by simp⟩
      · obtain ⟨pre, post, hl, hpre⟩ := ih h
        refine ⟨a :: pre, post, by simp [hl], ?_⟩
        intro y hy
        rcases List.mem_cons.mp hy with rfl | hy
        · exact hp
        · exact hpre y hy
    · rw [if_neg hp] at h
      simp at h

theorem mem_of_mem_takeWhile_ne {α : Type} [DecidableEq α] (x y : α) (pre post : List α)
    (h : y ∈ (pre ++ x :: post).takeWhile (fun s => s != x)) : y ∈ pre := by
  induction pre with
  | nil => simp [List.takeWhile] at h
  | cons a pre ih =>
    rw [List.cons_append, List.takeWhile_cons] at h
    by_cases hp : (a != x) = true
    · rw [if_pos hp] at h
      rcases List.mem_cons.mp h with rfl | h
      · exact List.mem_cons_self _ _
      · exact List.mem_cons_of_mem _ (ih h)
    · rw [if_neg hp] at h
      simp at h

theorem mem_takeWhile_append {α : Type} (p : α → Bool) (y : α) (l l' : List α)
    (h : y ∈ l.takeWhile p) : y ∈ (l ++ l').takeWhile p := by
  induction l with
  | nil => simp at h
  | cons a l ih =>
    rw [List.cons_append, List.takeWhile_cons]
    rw [List.takeWhile_cons] at h
    by_cases hp : p a = true
    · rw [if_pos hp] at h ⊢
      rcases List.mem_cons.mp h with rfl | h
      · exact List.mem_cons_self _ _
      · exact List.mem_cons_of_mem _ (ih h)
    · rw [if_neg hp] at h
      simp at h

/-! ## Environments -/

theorem withExec_exec (o : Outcomes) (s t : Site) (r : ExecResult) :
    (o.withExec s r).exec t = if t = s then r else o.exec t := rfl

theorem execAsync_withExec_ne (o : Outcomes) (s t : Site) (r : ExecResult) (h : t ≠ s)
    (command : String) (cwd : Option String) :
    execAsync (o.withExec s r) t command cwd = execAsync o t command cwd := by
  simp [execAsync, withExec_exec, h]

theorem fsWriteFile_withExec (o : Outcomes) (s : Site) (r : ExecResult)
    (file content : String) :
    fsWriteFile (o.withExec s r) file content = fsWriteFile o file content := rfl

theorem withExec_registry (o : Outcomes) (s : Site) (r : ExecResult) :
    (o.withExec s r).registry = o.registry := rfl

theorem withExec_uuid (o : Outcomes) (s : Site) (r : ExecResult) :
    (o.withExec s r).uuid = o.uuid := rfl

theorem truthy_eq_false (v : Option String) :
    truthy v = false ↔ v = none ∨ v = some "" := by
  cases v <;> simp [truthy]

/-! ## The deploy handler, piece by piece -/

/-- The catch block always issues the same three effects: the removal may fail,
its failure is swallowed. -/
theorem deployCatch_trace (o : Outcomes) (deploymentId workdir message : String) :
    (deployCatch o deploymentId workdir message).trace =
      [Effect.console Level.error ["[" ++ deploymentId ++ "] Deployment failed:", message],
        Effect.exec Site.cleanupOnFailure ("rm -rf " ++ workdir) none,
        Effect.respond 500
          [("success", JVal.bool false), ("deployment_id", JVal.str deploymentId),
            ("error", JVal.str message)]] := by
  rcases h : (o.exec Site.cleanupOnFailure).error with _ | m <;>
  simp [deployCatch, execAsync, emit, bind, Act.bind, tryCatch, Act.tryCatch, tryCatchThe,
    MonadExcept.tryCatch, pure, Act.pure, h]

/-- A request that passes validation draws an identifier, runs the try block
and, when that throws, the catch block. -/
theorem deploy_valid (cfg : Config) (o : Outcomes) (req : DeployRequest)
    (hd : truthy req.domain = true) (hr : truthy req.repo_url = true) (T : Act Unit)
    (hT : T = deployTry cfg o (jsStr req.domain) (jsStr req.repo_url)
      (withDefault req.branch "main") (withDefault req.build_command "npm run build")
      (withDefault req.deploy_path "dist") o.uuid (pathJoin cfg.DEPLOY_BASE_DIR o.uuid)) :
    (deploy cfg o req).trace = Effect.uuid o.uuid :: (T.trace ++
      match T.result with
      | .ok _ => []
      | .error message =>
        (deployCatch o o.uuid (pathJoin cfg.DEPLOY_BASE_DIR o.uuid) message).trace) := by
  subst hT
  simp only [deploy, hd, hr, uuidv4, bind, Act.bind, tryCatch, Act.tryCatch, tryCatchThe,
    MonadExcept.tryCatch]
  simp only [Bool.not_true, Bool.or_self, Bool.false_eq_true, if_false]
  split <;> simp_all

/-- What one case analysis over the outcomes of the try block shows. -/
theorem deployTry_facts (cfg : Config) (o : Outcomes)
    (domain repo_url branch build_command deploy_path deploymentId workdir : String)
    (T : Act Unit)
    (hT : T = deployTry cfg o domain repo_url branch build_command deploy_path deploymentId
      workdir) :
    (∀ m, T.result = .error m → responses T.trace = []) ∧
    (T.result = .ok () →
      o.stagesSucceed ∧ o.registry = none ∧
      Effect.exec Site.cleanup ("rm -rf " ++ workdir) none ∈ beforeResponse T.trace ∧
      responses T.trace = [successResponse deploymentId domain] ∧
      sites T.trace = [Site.clone, Site.build, Site.mkdir, Site.rsync, Site.scp, Site.mv,
        Site.ln, Site.nginxTest, Site.certbot, Site.reload, Site.cleanup]) ∧
    (Site.reload ∈ sites T.trace ∨ Site.certbot ∈ sites T.trace →
      o.writeFile = none ∧ (o.exec Site.scp).error = none ∧ (o.exec Site.mv).error = none ∧
      (o.exec Site.ln).error = none ∧ (o.exec Site.nginxTest).error = none) ∧
    (Site.reload ∈ sites T.trace →
      Site.nginxTest ∈ (sites T.trace).takeWhile (fun s => s != Site.reload)) ∧
    Site.cleanupOnFailure ∉ sites T.trace := by
  subst hT
  rcases h1 : (o.exec Site.clone).error with _ | m1
  swap
  · simp [deployTry, execAsync, emit, bind, Act.bind, h1, responses, sites]
  rcases h2 : (o.exec Site.build).error with _ | m2
  swap
  · simp [deployTry, execAsync, emit, bind, Act.bind, h1, h2, responses, sites]
  rcases h3 : (o.exec Site.mkdir).error with _ | m3
  swap
  · simp [deployTry, execAsync, emit, bind, Act.bind, h1, h2, h3, responses, sites]
  rcases h4 : (o.exec Site.rsync).error with _ | m4
  swap
  · simp [deployTry, execAsync, emit, bind, Act.bind, h1, h2, h3, h4, responses, sites]
  rcases h5 : o.writeFile with _ | m5
  swap
  · simp [deployTry, configureNginx, fsWriteFile, execAsync, emit, bind, Act.bind,
      h1, h2, h3, h4, h5, responses, sites]
  rcases h6 : (o.exec Site.scp).error with _ | m6
  swap
  · simp [deployTry, configureNginx, fsWriteFile, execAsync, emit, bind, Act.bind,
      h1, h2, h3, h4, h5, h6, responses, sites]
  rcases h7 : (o.exec Site.mv).error with _ | m7
  swap
  · simp [deployTry, configureNginx, fsWriteFile, execAsync, emit, bind, Act.bind,
      h1, h2, h3, h4, h5, h6, h7, responses, sites]
  rcases h8 : (o.exec Site.ln).error with _ | m8
  swap
  · simp [deployTry, configureNginx, fsWriteFile, execAsync, emit, bind, Act.bind,
      h1, h2, h3, h4, h5, h6, h7, h8, responses, sites]
  rcases h9 : (o.exec Site.nginxTest).error with _ | m9
  swap
  · simp [deployTry, configureNginx, fsWriteFile, execAsync, emit, bind, Act.bind,
      h1, h2, h3, h4, h5, h6, h7, h8, h9, responses, sites]
  rcases h10 : (o.exec Site.reload).error with _ | m10
  swap
  · rcases hc : (o.exec Site.certbot).error with _ | mc <;>
    simp [deployTry, configureNginx, generateSSL, fsWriteFile, execAsync, emit, bind, Act.bind,
      tryCatch, Act.tryCatch, tryCatchThe, MonadExcept.tryCatch, pure, Act.pure,
      h1, h2, h3, h4, h5, h6, h7, h8, h9, hc, h10, responses, sites, List.takeWhile_cons]
  rcases h11 : (o.exec Site.cleanup).error with _ | m11
  swap
  · rcases hc : (o.exec Site.certbot).error with _ | mc <;>
    simp [deployTry, configureNginx, generateSSL, fsWriteFile, execAsync, emit, bind, Act.bind,
      tryCatch, Act.tryCatch, tryCatchThe, MonadExcept.tryCatch, pure, Act.pure,
      h1, h2, h3, h4, h5, h6, h7, h8, h9, hc, h10, h11, responses, sites, List.takeWhile_cons]
  rcases h12 : o.registry with _ | m12
  swap
  · rcases hc : (o.exec Site.certbot).error with _ | mc <;>
    simp [deployTry, configureNginx, generateSSL, fsWriteFile, axiosPost, execAsync, emit, bind,
      Act.bind, tryCatch, Act.tryCatch, tryCatchThe, MonadExcept.tryCatch, pure, Act.pure,
      h1, h2, h3, h4, h5, h6, h7, h8, h9, hc, h10, h11, h12, responses, sites, List.takeWhile_cons]
  rcases hc : (o.exec Site.certbot).error with _ | mc <;>
  simp [deployTry, configureNginx, generateSSL, fsWriteFile, axiosPost, execAsync, emit, bind,
    Act.bind, tryCatch, Act.tryCatch, tryCatchThe, MonadExcept.tryCatch, pure, Act.pure,
    h1, h2, h3, h4, h5, h6, h7, h8, h9, hc, h10, h11, h12, responses, sites, beforeResponse,
    Outcomes.stagesSucceed, successResponse, List.takeWhile_cons]

/-- The try block does not look at the outcome of the removal in the catch block. -/
theorem deployTry_withExec_cleanupOnFailure (cfg : Config) (o : Outcomes) (r : ExecResult)
    (domain repo_url branch build_command deploy_path deploymentId workdir : String) :
    deployTry cfg (o.withExec Site.cleanupOnFailure r) domain repo_url branch build_command
        deploy_path deploymentId workdir
      = deployTry cfg o domain repo_url branch build_command deploy_path deploymentId
        workdir := by
  simp [deployTry, configureNginx, generateSSL, execAsync_withExec_ne, fsWriteFile_withExec,
    withExec_registry]

/-- The try block always starts by logging and issuing the clone command. -/
theorem deployTry_trace_head (cfg : Config) (o : Outcomes)
    (domain repo_url branch build_command deploy_path deploymentId workdir : String) :
    ∃ rest, (deployTry cfg o domain repo_url branch build_command deploy_path deploymentId
      workdir).trace =
        Effect.console Level.log ["[" ++ deploymentId ++ "] Cloning " ++ repo_url ++ "..."] ::
        Effect.exec Site.clone
          ("git clone -b " ++ branch ++ " " ++ repo_url ++ " " ++ workdir) none :: rest := by
  rcases h1 : (o.exec Site.clone).error with _ | m1 <;>
  simp [deployTry, execAsync, emit, bind, Act.bind, h1]

/-! ## Validation (C1, C10) -/

/-- C1: a deploy request whose domain is missing or empty, or whose repo_url is
missing or empty, is answered with status 400 and `success:false`, and that
response is the only effect of the handler: no identifier is drawn, so no
workspace path is derived, no command is run and nothing is posted to the
registry. -/
theorem deploy_missing_field_rejected (cfg : Config) (o : Outcomes) (req : DeployRequest)
    (h : req.domain = none ∨ req.domain = some "" ∨
      req.repo_url = none ∨ req.repo_url = some "") :
    (deploy cfg o req).trace =
      [Effect.respond 400
        [("success", JVal.bool false),
          ("error", JVal.str "domain and repo_url are required")]] ∧
    sites (deploy cfg o req).trace = [] ∧
    (∀ id, Effect.uuid id ∉ (deploy cfg o req).trace) ∧
    (∀ site command cwd, Effect.exec site command cwd ∉ (deploy cfg o req).trace) ∧
    (∀ file content, Effect.writeFile file content ∉ (deploy cfg o req).trace) ∧
    (∀ url body, Effect.post url body ∉ (deploy cfg o req).trace) := by
  have hv : truthy req.domain = false ∨ truthy req.repo_url = false := by
    rcases h with h | h | h | h <;> simp [truthy, h]
  have ht : (deploy cfg o req).trace =
      [Effect.respond 400
        [("success", JVal.bool false),
          ("error", JVal.str "domain and repo_url are required")]] := by
    rcases hv with hv | hv <;> simp [deploy, hv, emit]
  simp [ht, sites]

/-- C1 at a request with an empty domain. -/
theorem deploy_missing_field_rejected_witness :
    (deploy demoConfig allSucceed ⟨some "", some "https://git.example/demo.git", none, none,
        none⟩).trace =
      [Effect.respond 400
        [("success", JVal.bool false),
          ("error", JVal.str "domain and repo_url are required")]] :=
  (deploy_missing_field_rejected demoConfig allSucceed
    ⟨some "", some "https://git.example/demo.git", none, none, none⟩
    (Or.inr (Or.inl rfl))).1

/-- C10 fails as stated: a request whose domain holds a blank and a `;` is not
rejected; an identifier is drawn and the clone command is issued. -/
theorem malformed_domain_not_rejected :
    (deploy demoConfig allSucceed
        ⟨some "bad host;x", some "https://git.example/demo.git", none, none, none⟩).trace.take 3 =
      [Effect.uuid "3f2a",
        Effect.console Level.log ["[3f2a] Cloning https://git.example/demo.git..."],
        Effect.exec Site.clone
          "git clone -b main https://git.example/demo.git /tmp/road-deploys/3f2a" none] := by
  decide

/-- C10, amended: the handler rejects a request before drawing an identifier
exactly when the domain or the repo_url is missing or empty.  The syntax of a
non-empty domain is never looked at: every other request draws an identifier
and issues the clone command. -/
theorem deploy_rejects_iff_missing_or_empty (cfg : Config) (o : Outcomes)
    (req : DeployRequest) :
    ((deploy cfg o req).trace =
        [Effect.respond 400
          [("success", JVal.bool false),
            ("error", JVal.str "domain and repo_url are required")]] ↔
      (req.domain = none ∨ req.domain = some "" ∨
        req.repo_url = none ∨ req.repo_url = some "")) ∧
    ((Effect.uuid o.uuid ∈ (deploy cfg o req).trace ∧
        Site.clone ∈ sites (deploy cfg o req).trace) ↔
      ¬ (req.domain = none ∨ req.domain = some "" ∨
        req.repo_url = none ∨ req.repo_url = some "")) := by
  by_cases hd : truthy req.domain = true
  · by_cases hr : truthy req.repo_url = true
    · have hvalid : ¬ (req.domain = none ∨ req.domain = some "" ∨
          req.repo_url = none ∨ req.repo_url = some "") := by
        intro h
        rcases h with h | h | h | h <;> simp [truthy, h] at hd hr
      obtain ⟨rest, hrest⟩ := deployTry_trace_head cfg o (jsStr req.domain)
        (jsStr req.repo_url) (withDefault req.branch "main")
        (withDefault req.build_command "npm run build") (withDefault req.deploy_path "dist")
        o.uuid (pathJoin cfg.DEPLOY_BASE_DIR o.uuid)
      have ht := deploy_valid cfg o req hd hr _ rfl
      rw [hrest] at ht
      simp [ht, hvalid, sites, sites_append]
    · have hinvalid : req.domain = none ∨ req.domain = some "" ∨
          req.repo_url = none ∨ req.repo_url = some "" := by
        have := (truthy_eq_false req.repo_url).mp (by simpa using hr)
        tauto
      have hr' : truthy req.repo_url = false := by simpa using hr
      simp [deploy, hr', emit, hinvalid, sites]
  · have hinvalid : req.domain = none ∨ req.domain = some "" ∨
        req.repo_url = none ∨ req.repo_url = some "" := by
      have := (truthy_eq_false req.domain).mp (by simpa using hd)
      tauto
    have hd' : truthy req.domain = false := by simpa using hd
    simp [deploy, hd', emit, hinvalid, sites]

/-! ## Build failure (C8) -/

/-- C8: when the clone succeeds and the build command fails, the handler issues
exactly the clone, the build and the removal of the workspace, and answers 500
with `success:false`, the identifier of the attempt and the standard-error text
of the build (the message of the process error when that text is empty).  No
command is sent to the target host. -/
theorem build_failure_response (cfg : Config) (o : Outcomes) (req : DeployRequest)
    (message : String)
    (hd : truthy req.domain = true) (hr : truthy req.repo_url = true)
    (hclone : (o.exec Site.clone).error = none)
    (hbuild : (o.exec Site.build).error = some message) :
    (deploy cfg o req).trace =
      [Effect.uuid o.uuid,
        Effect.console Level.log
          ["[" ++ o.uuid ++ "] Cloning " ++ jsStr req.repo_url ++ "..."],
        Effect.exec Site.clone
          ("git clone -b " ++ withDefault req.branch "main" ++ " " ++ jsStr req.repo_url
            ++ " " ++ pathJoin cfg.DEPLOY_BASE_DIR o.uuid) none,
        Effect.console Level.log ["[" ++ o.uuid ++ "] Building project..."],
        Effect.exec Site.build (withDefault req.build_command "npm run build")
          (some (pathJoin cfg.DEPLOY_BASE_DIR o.uuid)),
        Effect.console Level.error
          ["[" ++ o.uuid ++ "] Deployment failed:",
            if (o.exec Site.build).stderr ≠ "" then (o.exec Site.build).stderr else message],
        Effect.exec Site.cleanupOnFailure
          ("rm -rf " ++ pathJoin cfg.DEPLOY_BASE_DIR o.uuid) none,
        Effect.respond 500
          [("success", JVal.bool false), ("deployment_id", JVal.str o.uuid),
            ("error", JVal.str
              (if (o.exec Site.build).stderr ≠ "" then (o.exec Site.build).stderr
                else message))]] ∧
    sites (deploy cfg o req).trace = [Site.clone, Site.build, Site.cleanupOnFailure] := by
  have ht := deploy_valid cfg o req hd hr _ rfl
  have hT : deployTry cfg o (jsStr req.domain) (jsStr req.repo_url)
      (withDefault req.branch "main") (withDefault req.build_command "npm run build")
      (withDefault req.deploy_path "dist") o.uuid (pathJoin cfg.DEPLOY_BASE_DIR o.uuid) =
      ⟨[Effect.console Level.log
          ["[" ++ o.uuid ++ "] Cloning " ++ jsStr req.repo_url ++ "..."],
        Effect.exec Site.clone
          ("git clone -b " ++ withDefault req.branch "main" ++ " " ++ jsStr req.repo_url
            ++ " " ++ pathJoin cfg.DEPLOY_BASE_DIR o.uuid) none,
        Effect.console Level.log ["[" ++ o.uuid ++ "] Building project..."],
        Effect.exec Site.build (withDefault req.build_command "npm run build")
          (some (pathJoin cfg.DEPLOY_BASE_DIR o.uuid))],
        .error (if (o.exec Site.build).stderr ≠ "" then (o.exec Site.build).stderr
          else message)⟩ := by
    simp [deployTry, execAsync, emit, bind, Act.bind, hclone, hbuild]
  rw [hT] at ht
  simp only [deployCatch_trace] at ht
  refine ⟨by simpa using ht, ?_⟩
  rw [ht]
  simp [sites]

/-- C8 at the spec's Scenario B: the build writes `boom` to standard error. -/
theorem build_failure_response_witness :
    sites (deploy demoConfig (allSucceed.withExec Site.build (exitOne "boom"))
      demoRequest).trace = [Site.clone, Site.build, Site.cleanupOnFailure] :=
  (build_failure_response demoConfig (allSucceed.withExec Site.build (exitOne "boom"))
    demoRequest "Command failed" (by decide) (by decide) (by decide) (by decide)).2

/-! ## Cleanup on every path (C2) -/

/-- C2: for every request that passes validation and every outcome of the
commands, the file write and the registry call, the handler issues `rm -rf` on
the attempt's own workspace path (the base directory joined with the
deployment identifier) before it sends its one response, from line 90 on the
success path and from the catch block on every failure path.  The outcome of
the removal in the catch block changes nothing in the trace: when the try block
throws, the response carries the message of that throw. -/
theorem workspace_removed_before_response (cfg : Config) (o : Outcomes)
    (req : DeployRequest)
    (hd : truthy req.domain = true) (hr : truthy req.repo_url = true) :
    (∃ pre post site response,
      (deploy cfg o req).trace =
        pre ++ Effect.exec site ("rm -rf " ++ pathJoin cfg.DEPLOY_BASE_DIR o.uuid) none
          :: post ∧
      (site = Site.cleanup ∨ site = Site.cleanupOnFailure) ∧
      responses pre = [] ∧ responses post = [response]) ∧
    (∀ r : ExecResult,
      (deploy cfg (o.withExec Site.cleanupOnFailure r) req).trace =
        (deploy cfg o req).trace) ∧
    (∀ message,
      (deployTry cfg o (jsStr req.domain) (jsStr req.repo_url)
        (withDefault req.branch "main") (withDefault req.build_command "npm run build")
        (withDefault req.deploy_path "dist") o.uuid
        (pathJoin cfg.DEPLOY_BASE_DIR o.uuid)).result = .error message →
      Effect.exec Site.cleanupOnFailure
          ("rm -rf " ++ pathJoin cfg.DEPLOY_BASE_DIR o.uuid) none ∈ (deploy cfg o req).trace ∧
        responses (deploy cfg o req).trace = [failureResponse o.uuid message]) := by
  obtain ⟨T, hT⟩ : ∃ T, T = deployTry cfg o (jsStr req.domain) (jsStr req.repo_url)
      (withDefault req.branch "main") (withDefault req.build_command "npm run build")
      (withDefault req.deploy_path "dist") o.uuid (pathJoin cfg.DEPLOY_BASE_DIR o.uuid) :=
    ⟨_, rfl⟩
  have ht := deploy_valid cfg o req hd hr T hT
  obtain ⟨hErr, hOk, -, -, -⟩ := deployTry_facts cfg o (jsStr req.domain)
    (jsStr req.repo_url) (withDefault req.branch "main")
    (withDefault req.build_command "npm run build") (withDefault req.deploy_path "dist")
    o.uuid (pathJoin cfg.DEPLOY_BASE_DIR o.uuid) T hT
  refine ⟨?_, ?_, ?_⟩
  · rcases hres : T.result with message | u
    · rw [hres] at ht
      simp only [deployCatch_trace] at ht
      refine ⟨Effect.uuid o.uuid :: (T.trace ++
          [Effect.console Level.error ["[" ++ o.uuid ++ "] Deployment failed:", message]]),
        [Effect.respond 500
          [("success", JVal.bool false), ("deployment_id", JVal.str o.uuid),
            ("error", JVal.str message)]],
        Site.cleanupOnFailure, _, ?_, Or.inr rfl, ?_, rfl⟩
      · rw [ht]
        simp
      · simp [responses, responses_append, hErr message hres]
    · obtain ⟨-, -, hmem, hresp, -⟩ := hOk hres
      rw [hres] at ht
      have hmem' : Effect.exec Site.cleanup
          ("rm -rf " ++ pathJoin cfg.DEPLOY_BASE_DIR o.uuid) none ∈
            beforeResponse (deploy cfg o req).trace := by
        rw [ht]
        simp only [List.append_nil, beforeResponse, List.takeWhile_cons]
        exact List.mem_cons_of_mem _ hmem
      obtain ⟨pre, post, hsplit, hpre⟩ := mem_takeWhile_split _ _ _ hmem'
      have hprenil : responses pre = [] := responses_eq_nil_of_forall pre hpre
      refine ⟨pre, post, Site.cleanup, successResponse o.uuid (jsStr req.domain), hsplit,
        Or.inl rfl, hprenil, ?_⟩
      have hall : responses (deploy cfg o req).trace
          = [successResponse o.uuid (jsStr req.domain)] := by
        rw [ht]
        simp [responses, hresp]
      rw [hsplit, responses_append, hprenil] at hall
      simpa [responses] using hall
  · intro r
    have ht' := deploy_valid cfg (o.withExec Site.cleanupOnFailure r) req hd hr _ rfl
    rw [withExec_uuid, deployTry_withExec_cleanupOnFailure, ← hT] at ht'
    rw [ht, ht']
    cases T.result <;> simp [deployCatch_trace]
  · intro message hres
    rw [← hT] at hres
    rw [hres] at ht
    simp only [deployCatch_trace] at ht
    rw [ht]
    simp [responses, responses_append, hErr message hres, failureResponse]

/-- C2 at a run in which the build fails and the removal in the catch block fails too. -/
theorem workspace_removed_before_response_witness :
    (deploy demoConfig
      ((allSucceed.withExec Site.build (exitOne "boom")).withExec Site.cleanupOnFailure
        (exitOne "rm: cannot remove: Device or resource busy"))
      demoRequest).trace =
    (deploy demoConfig (allSucceed.withExec Site.build (exitOne "boom")) demoRequest).trace :=
  (workspace_removed_before_response demoConfig
    (allSucceed.withExec Site.build (exitOne "boom")) demoRequest
    (by decide) (by decide)).2.1 (exitOne "rm: cannot remove: Device or resource busy")

/-! ## Routing configuration and reload (C6, C7) -/

/-- C7: for a request that passes validation, if a step of `configureNginx`
fails (the write of the staging file, its transfer, its installation, the link,
or `nginx -t`), the attempt issues neither the reload command nor the
certificate command and answers with the failure response.  Conversely a reload
command in the trace comes after the `nginx -t` command of the same attempt,
and that validation succeeded. -/
theorem reload_requires_validated_configuration (cfg : Config) (o : Outcomes)
    (req : DeployRequest)
    (hd : truthy req.domain = true) (hr : truthy req.repo_url = true) :
    ((o.writeFile ≠ none ∨ (o.exec Site.scp).error ≠ none ∨ (o.exec Site.mv).error ≠ none ∨
        (o.exec Site.ln).error ≠ none ∨ (o.exec Site.nginxTest).error ≠ none) →
      Site.reload ∉ sites (deploy cfg o req).trace ∧
      Site.certbot ∉ sites (deploy cfg o req).trace ∧
      ∃ message, responses (deploy cfg o req).trace = [failureResponse o.uuid message]) ∧
    (∀ pre post, sites (deploy cfg o req).trace = pre ++ Site.reload :: post →
      Site.nginxTest ∈ pre ∧ (o.exec Site.nginxTest).error = none) := by
  obtain ⟨T, hT⟩ : ∃ T, T = deployTry cfg o (jsStr req.domain) (jsStr req.repo_url)
      (withDefault req.branch "main") (withDefault req.build_command "npm run build")
      (withDefault req.deploy_path "dist") o.uuid (pathJoin cfg.DEPLOY_BASE_DIR o.uuid) :=
    ⟨_, rfl⟩
  have ht := deploy_valid cfg o req hd hr T hT
  obtain ⟨hErr, hOk, hReach, hBefore, hNoCatch⟩ := deployTry_facts cfg o (jsStr req.domain)
    (jsStr req.repo_url) (withDefault req.branch "main")
    (withDefault req.build_command "npm run build") (withDefault req.deploy_path "dist")
    o.uuid (pathJoin cfg.DEPLOY_BASE_DIR o.uuid) T hT
  have hsites : ∃ tail, sites (deploy cfg o req).trace =
      sites T.trace ++ tail ∧
      (tail = [] ∨ tail = [Site.cleanupOnFailure]) := by
    rw [ht]
    cases T.result <;>
      simp [sites, sites_append, deployCatch_trace]
  obtain ⟨tail, htail, htailCases⟩ := hsites
  have hmemT : ∀ s, s ≠ Site.cleanupOnFailure → s ∈ sites (deploy cfg o req).trace →
      s ∈ sites T.trace := by
    intro s hs hmem
    rw [htail] at hmem
    rcases List.mem_append.mp hmem with h | h
    · exact h
    · rcases htailCases with rfl | rfl
      · simp at h
      · simp at h
        exact absurd h hs
  refine ⟨?_, ?_⟩
  · intro hfail
    have hnot : ¬ (o.writeFile = none ∧ (o.exec Site.scp).error = none ∧
        (o.exec Site.mv).error = none ∧ (o.exec Site.ln).error = none ∧
        (o.exec Site.nginxTest).error = none) := by
      intro hall
      obtain ⟨a, b, c, d, e⟩ := hall
      rcases hfail with h | h | h | h | h
      · exact h a
      · exact h b
      · exact h c
      · exact h d
      · exact h e
    refine ⟨?_, ?_, ?_⟩
    · intro hmem
      exact hnot (hReach (Or.inl (hmemT _ (by decide) hmem)))
    · intro hmem
      exact hnot (hReach (Or.inr (hmemT _ (by decide) hmem)))
    · rcases hres : T.result with message | u
      · refine ⟨message, ?_⟩
        rw [ht, hres]
        simp [responses, responses_append, hErr message hres, failureResponse,
          deployCatch_trace]
      · exfalso
        obtain ⟨hs, -⟩ := hOk hres
        obtain ⟨-, -, -, -, a, b, c, d, e, -⟩ := hs
        exact hnot ⟨a, b, c, d, e⟩
  · intro pre post hsplit
    have hmem : Site.reload ∈ sites (deploy cfg o req).trace := by
      rw [hsplit]
      simp
    have hmemT' := hmemT _ (by decide) hmem
    refine ⟨?_, (hReach (Or.inl hmemT')).2.2.2.2⟩
    have h1 := mem_takeWhile_append _ _ _ tail (hBefore hmemT')
    rw [← htail, hsplit] at h1
    exact mem_of_mem_takeWhile_ne _ _ _ _ h1

/-- C7 at a run in which `nginx -t` rejects the configuration. -/
theorem reload_requires_validated_configuration_witness :
    Site.reload ∉ sites (deploy demoConfig
      (allSucceed.withExec Site.nginxTest (exitOne "nginx: configuration file test failed"))
      demoRequest).trace :=
  ((reload_requires_validated_configuration demoConfig
    (allSucceed.withExec Site.nginxTest (exitOne "nginx: configuration file test failed"))
    demoRequest (by decide) (by decide)).1
      (Or.inr (Or.inr (Or.inr (Or.inr (by decide)))))).1

/-- C6 fails as stated: in the fully successful run of Scenario A the
certificate command is issued before the reload command, not after it. -/
theorem reload_issued_after_certificate :
    responses (deploy demoConfig allSucceed demoRequest).trace =
      [successResponse "3f2a" "demo.example.org"] ∧
    sites (deploy demoConfig allSucceed demoRequest).trace =
      [Site.clone, Site.build, Site.mkdir, Site.rsync, Site.scp, Site.mv, Site.ln,
        Site.nginxTest, Site.certbot, Site.reload, Site.cleanup] ∧
    (sites (deploy demoConfig allSucceed demoRequest).trace).indexOf Site.certbot <
      (sites (deploy demoConfig allSucceed demoRequest).trace).indexOf Site.reload := by
  decide

/-- C6, amended: a run that answers with status 200 issued its commands in
exactly this order: clone, build, mkdir and rsync on the target, the four
commands of the routing configuration ending with `nginx -t`, the certificate
command, the reload, and the removal of the workspace.  The reload comes after
the validation and after the certificate command, and before the removal. -/
theorem successful_run_command_order (cfg : Config) (o : Outcomes) (req : DeployRequest)
    (body : Body) (h : (200, body) ∈ responses (deploy cfg o req).trace) :
    sites (deploy cfg o req).trace =
      [Site.clone, Site.build, Site.mkdir, Site.rsync, Site.scp, Site.mv, Site.ln,
        Site.nginxTest, Site.certbot, Site.reload, Site.cleanup] := by
  by_cases hd : truthy req.domain = true
  swap
  · have hd' : truthy req.domain = false := by simpa using hd
    simp [deploy, hd', emit, responses] at h
  by_cases hr : truthy req.repo_url = true
  swap
  · have hr' : truthy req.repo_url = false := by simpa using hr
    simp [deploy, hr', emit, responses] at h
  obtain ⟨T, hT⟩ : ∃ T, T = deployTry cfg o (jsStr req.domain) (jsStr req.repo_url)
      (withDefault req.branch "main") (withDefault req.build_command "npm run build")
      (withDefault req.deploy_path "dist") o.uuid (pathJoin cfg.DEPLOY_BASE_DIR o.uuid) :=
    ⟨_, rfl⟩
  have ht := deploy_valid cfg o req hd hr T hT
  obtain ⟨hErr, hOk, -, -, -⟩ := deployTry_facts cfg o (jsStr req.domain)
    (jsStr req.repo_url) (withDefault req.branch "main")
    (withDefault req.build_command "npm run build") (withDefault req.deploy_path "dist")
    o.uuid (pathJoin cfg.DEPLOY_BASE_DIR o.uuid) T hT
  rcases hres : T.result with message | u
  · rw [ht, hres] at h
    simp [responses, responses_append, hErr message hres, deployCatch_trace] at h
  · obtain ⟨-, -, -, -, hsites⟩ := hOk hres
    rw [ht, hres]
    simp [sites, hsites]

/-- C6 at the fully successful run of Scenario A. -/
theorem successful_run_command_order_witness :
    sites (deploy demoConfig allSucceed demoRequest).trace =
      [Site.clone, Site.build, Site.mkdir, Site.rsync, Site.scp, Site.mv, Site.ln,
        Site.nginxTest, Site.certbot, Site.reload, Site.cleanup] :=
  successful_run_command_order demoConfig allSucceed demoRequest
    (successResponse "3f2a" "demo.example.org").2 (by decide)

/-! ## Certificate and registry (C3, C4, C5) -/

theorem actions_append (a b : List Effect) : actions (a ++ b) = actions a ++ actions b := by
  simp [actions]

theorem sites_actions (l : List Effect) : sites (actions l) = sites l := by
  induction l with
  | nil => rfl
  | cons e l ih =>
    cases e <;> simp_all [sites, actions, Effect.isConsole, List.filter]

theorem Same.refl {α : Type} (m : Act α) : Same m m := ⟨rfl, rfl⟩

theorem Same.bind {α β : Type} {m₁ m₂ : Act α} {f₁ f₂ : α → Act β} (h : Same m₁ m₂)
    (hf : ∀ a, Same (f₁ a) (f₂ a)) : Same (m₁ >>= f₁) (m₂ >>= f₂) := by
  obtain ⟨ht, hr⟩ := h
  show Same (Act.bind m₁ f₁) (Act.bind m₂ f₂)
  unfold Act.bind
  rw [← hr]
  cases h₁ : m₁.result with
  | error e => exact ⟨ht, rfl⟩
  | ok a =>
    refine ⟨?_, (hf a).2⟩
    simp only [actions_append, ht, (hf a).1]

/-- The function `generateSSL` never throws, and issues the certificate command
and console output only, whatever the command's outcome. -/
theorem generateSSL_facts (cfg : Config) (o : Outcomes) (domain : String) :
    (generateSSL cfg o domain).result = .ok () ∧
    actions (generateSSL cfg o domain).trace =
      [Effect.exec Site.certbot
        ("ssh pi@" ++ cfg.TARGET_HOST ++ " \"sudo certbot --nginx -d " ++ domain
          ++ " --non-interactive --agree-tos --email admin@blackroad.io\"") none] := by
  rcases h : (o.exec Site.certbot).error with _ | m <;>
  simp [generateSSL, execAsync, emit, bind, Act.bind, tryCatch, Act.tryCatch, tryCatchThe,
    MonadExcept.tryCatch, h, actions, Effect.isConsole]

theorem generateSSL_same (cfg : Config) (o₁ o₂ : Outcomes) (domain : String) :
    Same (generateSSL cfg o₁ domain) (generateSSL cfg o₂ domain) := by
  refine ⟨?_, ?_⟩
  · rw [(generateSSL_facts cfg o₁ domain).2, (generateSSL_facts cfg o₂ domain).2]
  · rw [(generateSSL_facts cfg o₁ domain).1, (generateSSL_facts cfg o₂ domain).1]

/-- Replacing the outcome of the certificate command changes the console
output of the try block at most. -/
theorem deployTry_same (cfg : Config) (o : Outcomes) (r₁ r₂ : ExecResult)
    (domain repo_url branch build_command deploy_path deploymentId workdir : String) :
    Same
      (deployTry cfg (o.withExec Site.certbot r₁) domain repo_url branch build_command
        deploy_path deploymentId workdir)
      (deployTry cfg (o.withExec Site.certbot r₂) domain repo_url branch build_command
        deploy_path deploymentId workdir) := by
  have hcfg : ∀ r, configureNginx cfg (o.withExec Site.certbot r) domain
      ("/home/pi/static-sites/" ++ domain)
        = configureNginx cfg o domain ("/home/pi/static-sites/" ++ domain) := by
    intro r
    simp [configureNginx, execAsync_withExec_ne, fsWriteFile_withExec]
  simp only [deployTry, hcfg, withExec_registry]
  rw [execAsync_withExec_ne o _ Site.clone r₁ (by decide),
    execAsync_withExec_ne o _ Site.clone r₂ (by decide),
    execAsync_withExec_ne o _ Site.build r₁ (by decide),
    execAsync_withExec_ne o _ Site.build r₂ (by decide),
    execAsync_withExec_ne o _ Site.mkdir r₁ (by decide),
    execAsync_withExec_ne o _ Site.mkdir r₂ (by decide),
    execAsync_withExec_ne o _ Site.rsync r₁ (by decide),
    execAsync_withExec_ne o _ Site.rsync r₂ (by decide),
    execAsync_withExec_ne o _ Site.reload r₁ (by decide),
    execAsync_withExec_ne o _ Site.reload r₂ (by decide),
    execAsync_withExec_ne o _ Site.cleanup r₁ (by decide),
    execAsync_withExec_ne o _ Site.cleanup r₂ (by decide)]
  refine Same.bind (Same.refl _) (fun _ => ?_)
  refine Same.bind (Same.refl _) (fun _ => ?_)
  refine Same.bind (Same.refl _) (fun _ => ?_)
  refine Same.bind (Same.refl _) (fun _ => ?_)
  refine Same.bind (Same.refl _) (fun _ => ?_)
  refine Same.bind (Same.refl _) (fun _ => ?_)
  refine Same.bind (Same.refl _) (fun _ => ?_)
  refine Same.bind (Same.refl _) (fun _ => ?_)
  refine Same.bind (generateSSL_same cfg _ _ domain) (fun _ => ?_)
  exact Same.refl _

/-- With every stage other than the certificate succeeding, the try block runs
to the registry call, whose outcome is the outcome of the block. -/
theorem deployTry_stagesSucceed (cfg : Config) (o : Outcomes)
    (domain repo_url branch build_command deploy_path deploymentId workdir : String)
    (T : Act Unit)
    (hT : T = deployTry cfg o domain repo_url branch build_command deploy_path deploymentId
      workdir)
    (hs : o.stagesSucceed) :
    sites T.trace = [Site.clone, Site.build, Site.mkdir, Site.rsync, Site.scp, Site.mv,
      Site.ln, Site.nginxTest, Site.certbot, Site.reload, Site.cleanup] ∧
    (o.registry = none →
      T.result = .ok () ∧ responses T.trace = [successResponse deploymentId domain]) ∧
    (∀ message, o.registry = some message →
      T.result = .error message ∧ responses T.trace = []) ∧
    (∀ message, (o.exec Site.certbot).error = some message →
      Effect.console Level.warn
        ["⚠️  SSL generation failed for " ++ domain ++ ": " ++
          (if (o.exec Site.certbot).stderr ≠ "" then (o.exec Site.certbot).stderr
            else message)] ∈ T.trace) := by
  subst hT
  obtain ⟨h1, h2, h3, h4, h5, h6, h7, h8, h9, h10, h11⟩ := hs
  rcases hc : (o.exec Site.certbot).error with _ | mc <;>
  rcases h12 : o.registry with _ | m12 <;>
  simp [deployTry, configureNginx, generateSSL, fsWriteFile, axiosPost, execAsync, emit, bind,
    Act.bind, tryCatch, Act.tryCatch, tryCatchThe, MonadExcept.tryCatch, pure, Act.pure,
    h1, h2, h3, h4, h5, h6, h7, h8, h9, hc, h10, h11, h12, responses, sites,
    successResponse]

theorem stagesSucceed_withExec_certbot (o : Outcomes) (r : ExecResult)
    (hs : o.stagesSucceed) : (o.withExec Site.certbot r).stagesSucceed := by
  simpa [Outcomes.stagesSucceed, withExec_exec, Outcomes.withExec] using hs

/-- Replacing the outcome of the certificate command changes the console
output of the handler at most. -/
theorem deploy_actions_withExec_certbot (cfg : Config) (o : Outcomes)
    (req : DeployRequest) (r₁ r₂ : ExecResult) :
    actions (deploy cfg (o.withExec Site.certbot r₁) req).trace =
      actions (deploy cfg (o.withExec Site.certbot r₂) req).trace := by
  by_cases hd : truthy req.domain = true
  swap
  · have hd' : truthy req.domain = false := by simpa using hd
    simp [deploy, hd']
  by_cases hr : truthy req.repo_url = true
  swap
  · have hr' : truthy req.repo_url = false := by simpa using hr
    simp [deploy, hr']
  have h₁ := deploy_valid cfg (o.withExec Site.certbot r₁) req hd hr _ rfl
  have h₂ := deploy_valid cfg (o.withExec Site.certbot r₂) req hd hr _ rfl
  obtain ⟨hta, hres⟩ := deployTry_same cfg o r₁ r₂ (jsStr req.domain) (jsStr req.repo_url)
    (withDefault req.branch "main") (withDefault req.build_command "npm run build")
    (withDefault req.deploy_path "dist") o.uuid (pathJoin cfg.DEPLOY_BASE_DIR o.uuid)
  rw [withExec_uuid] at h₁ h₂
  rw [h₁, h₂, ← hres]
  generalize (deployTry cfg (o.withExec Site.certbot r₁) (jsStr req.domain)
    (jsStr req.repo_url) (withDefault req.branch "main")
    (withDefault req.build_command "npm run build") (withDefault req.deploy_path "dist")
    o.uuid (pathJoin cfg.DEPLOY_BASE_DIR o.uuid)) = T₁ at hta ⊢
  generalize (deployTry cfg (o.withExec Site.certbot r₂) (jsStr req.domain)
    (jsStr req.repo_url) (withDefault req.branch "main")
    (withDefault req.build_command "npm run build") (withDefault req.deploy_path "dist")
    o.uuid (pathJoin cfg.DEPLOY_BASE_DIR o.uuid)) = T₂ at hta ⊢
  have hcons : ∀ (e : Effect) (l : List Effect), actions (e :: l) = actions [e] ++ actions l :=
    fun e l => actions_append [e] l
  rw [hcons _ (T₁.trace ++ _), hcons _ (T₂.trace ++ _), actions_append, actions_append, hta]
  cases T₁.result <;> simp [deployCatch_trace]

/-- C3: the outcome of the certificate command never changes the outcome of
the pipeline.  For every request and every outcome of everything else, the
runs with certificate outcomes `r₁` and `r₂` issue the same commands, file
writes and HTTP calls in the same order and send the same response: they
differ in console output at most.  The function `generateSSL` never throws. -/
theorem certificate_outcome_never_changes_run (cfg : Config) (o : Outcomes)
    (req : DeployRequest) (r₁ r₂ : ExecResult) :
    actions (deploy cfg (o.withExec Site.certbot r₁) req).trace =
      actions (deploy cfg (o.withExec Site.certbot r₂) req).trace ∧
    responses (deploy cfg (o.withExec Site.certbot r₁) req).trace =
      responses (deploy cfg (o.withExec Site.certbot r₂) req).trace ∧
    sites (deploy cfg (o.withExec Site.certbot r₁) req).trace =
      sites (deploy cfg (o.withExec Site.certbot r₂) req).trace ∧
    (∀ domain, (generateSSL cfg (o.withExec Site.certbot r₁) domain).result = .ok ()) := by
  have hact := deploy_actions_withExec_certbot cfg o req r₁ r₂
  refine ⟨hact, ?_, ?_, fun domain => (generateSSL_facts cfg _ domain).1⟩
  · rw [← responses_actions, hact, responses_actions]
  · rw [← sites_actions, hact, sites_actions]

/-- C4 fails as stated: in Scenario A the response of the run whose certificate
command fails is the response of the run whose certificate command succeeds. -/
theorem certificate_failure_leaves_response_unchanged :
    responses (deploy demoConfig
        (allSucceed.withExec Site.certbot (exitOne "challenge failed")) demoRequest).trace =
      responses (deploy demoConfig allSucceed demoRequest).trace ∧
    responses (deploy demoConfig
        (allSucceed.withExec Site.certbot (exitOne "challenge failed")) demoRequest).trace =
      [(200, [("success", JVal.bool true), ("deployment_id", JVal.str "3f2a"),
        ("domain", JVal.str "demo.example.org"),
        ("url", JVal.str "https://demo.example.org"),
        ("message", JVal.str "Deployment successful")])] := by
  decide

/-- C4, amended: when the certificate command fails in an otherwise successful
deployment, the failure is written to the console as a warning and nowhere
else: the caller receives the plain success response, with no field that tells
the two runs apart, and apart from console output the run is the run in which
the certificate command succeeds. -/
theorem certificate_failure_only_warned (cfg : Config) (o : Outcomes) (req : DeployRequest)
    (r : ExecResult)
    (hd : truthy req.domain = true) (hr : truthy req.repo_url = true)
    (hs : o.stagesSucceed) (hreg : o.registry = none) :
    responses (deploy cfg (o.withExec Site.certbot r) req).trace =
      [successResponse o.uuid (jsStr req.domain)] ∧
    (∀ message, r.error = some message →
      Effect.console Level.warn
        ["⚠️  SSL generation failed for " ++ jsStr req.domain ++ ": " ++
          (if r.stderr ≠ "" then r.stderr else message)] ∈
        (deploy cfg (o.withExec Site.certbot r) req).trace) ∧
    actions (deploy cfg (o.withExec Site.certbot r) req).trace =
      actions (deploy cfg (o.withExec Site.certbot exitZero) req).trace := by
  obtain ⟨T, hT⟩ : ∃ T, T = deployTry cfg (o.withExec Site.certbot r) (jsStr req.domain)
      (jsStr req.repo_url) (withDefault req.branch "main")
      (withDefault req.build_command "npm run build") (withDefault req.deploy_path "dist")
      (o.withExec Site.certbot r).uuid
      (pathJoin cfg.DEPLOY_BASE_DIR (o.withExec Site.certbot r).uuid) := ⟨_, rfl⟩
  have ht := deploy_valid cfg (o.withExec Site.certbot r) req hd hr T hT
  obtain ⟨-, hOk, -, hWarn⟩ := deployTry_stagesSucceed cfg (o.withExec Site.certbot r) _ _ _
    _ _ _ _ T hT (stagesSucceed_withExec_certbot o r hs)
  obtain ⟨hres, hresp⟩ := hOk hreg
  rw [hres] at ht
  refine ⟨?_, ?_, deploy_actions_withExec_certbot cfg o req r exitZero⟩
  · rw [ht]
    simpa [responses] using hresp
  · intro message hm
    rw [ht]
    have := hWarn message (by simpa [withExec_exec] using hm)
    simp only [withExec_exec, if_true] at this
    exact List.mem_cons_of_mem _ (List.mem_append_left _ this)

/-- C4 (amended) at Scenario A with a failing certificate command. -/
theorem certificate_failure_only_warned_witness :
    responses (deploy demoConfig
        (allSucceed.withExec Site.certbot (exitOne "challenge failed")) demoRequest).trace =
      [successResponse "3f2a" "demo.example.org"] :=
  (certificate_failure_only_warned demoConfig allSucceed demoRequest
    (exitOne "challenge failed") (by decide) (by decide)
    (by simp [Outcomes.stagesSucceed, allSucceed, exitZero]) rfl).1

/-- C5 fails as stated: in Scenario A with every command succeeding and the
registry call failing, the caller receives the failure response with status
500 and the registry's error message. -/
theorem registry_failure_reaches_caller :
    responses (deploy demoConfig (allSucceed.withRegistry (some "connect ECONNREFUSED"))
        demoRequest).trace =
      [(500, [("success", JVal.bool false), ("deployment_id", JVal.str "3f2a"),
        ("error", JVal.str "connect ECONNREFUSED")])] := by
  decide

/-- C5, amended: the registry call is awaited inside the try block, so its
outcome decides the response.  For a request that passes validation, with
fetch, build, sync, routing configuration, reload and cleanup all succeeding:
when the registry call succeeds the response is the success result; when it
fails the handler runs the catch block, issuing the removal a second time, and
answers 500 with `success:false`, the identifier and the registry's error
message. -/
theorem registry_outcome_decides_response (cfg : Config) (o : Outcomes) (req : DeployRequest)
    (hd : truthy req.domain = true) (hr : truthy req.repo_url = true)
    (hs : o.stagesSucceed) :
    (o.registry = none →
      responses (deploy cfg o req).trace =
        [(200, [("success", JVal.bool true), ("deployment_id", JVal.str o.uuid),
          ("domain", JVal.str (jsStr req.domain)),
          ("url", JVal.str ("https://" ++ jsStr req.domain)),
          ("message", JVal.str "Deployment successful")])]) ∧
    (∀ message, o.registry = some message →
      responses (deploy cfg o req).trace =
        [(500, [("success", JVal.bool false), ("deployment_id", JVal.str o.uuid),
          ("error", JVal.str message)])] ∧
      sites (deploy cfg o req).trace =
        [Site.clone, Site.build, Site.mkdir, Site.rsync, Site.scp, Site.mv, Site.ln,
          Site.nginxTest, Site.certbot, Site.reload, Site.cleanup, Site.cleanupOnFailure]) := by
  obtain ⟨T, hT⟩ : ∃ T, T = deployTry cfg o (jsStr req.domain) (jsStr req.repo_url)
      (withDefault req.branch "main") (withDefault req.build_command "npm run build")
      (withDefault req.deploy_path "dist") o.uuid (pathJoin cfg.DEPLOY_BASE_DIR o.uuid) :=
    ⟨_, rfl⟩
  have ht := deploy_valid cfg o req hd hr T hT
  obtain ⟨hsites, hOk, hFail, -⟩ := deployTry_stagesSucceed cfg o _ _ _ _ _ _ _ T hT hs
  refine ⟨?_, ?_⟩
  · intro hreg
    obtain ⟨hres, hresp⟩ := hOk hreg
    rw [ht, hres]
    simpa [responses, successResponse] using hresp
  · intro message hreg
    obtain ⟨hres, hresp⟩ := hFail message hreg
    rw [ht, hres]
    simp [responses, responses_append, hresp, sites, sites_append, hsites, deployCatch_trace]

/-- C5 (amended) at Scenario A with a registry that refuses the connection. -/
theorem registry_outcome_decides_response_witness :
    responses (deploy demoConfig (allSucceed.withRegistry (some "connect ECONNREFUSED"))
        demoRequest).trace =
      [(500, [("success", JVal.bool false), ("deployment_id", JVal.str "3f2a"),
        ("error", JVal.str "connect ECONNREFUSED")])] :=
  ((registry_outcome_decides_response demoConfig
    (allSucceed.withRegistry (some "connect ECONNREFUSED")) demoRequest (by decide) (by decide)
    (by simp [Outcomes.stagesSucceed, Outcomes.withRegistry, allSucceed, exitZero])).2
      "connect ECONNREFUSED" rfl).1

/-! ## The webhook (C9) -/

theorem removeFirst_prefix (pat rest : List Char) :
    removeFirst pat (pat ++ rest) = rest := by
  cases h : pat ++ rest with
  | nil =>
    have := List.append_eq_nil.mp h
    simp [removeFirst, this.2]
  | cons c cs =>
    have hp : pat.isPrefixOf (c :: cs) = true := by
      rw [← h, List.isPrefixOf_iff_prefix]
      exact List.prefix_append _ _
    rw [removeFirst, if_pos hp, ← h]
    simp

theorem removeFirst_of_not_infix (pat l : List Char) (h : ¬ pat <:+: l) :
    removeFirst pat l = l := by
  induction l with
  | nil => rfl
  | cons c cs ih =>
    have hp : ¬ pat.isPrefixOf (c :: cs) = true := by
      rw [List.isPrefixOf_iff_prefix]
      exact fun hpre => h hpre.isInfix
    rw [removeFirst, if_neg hp, ih]
    intro hin
    exact h (hin.trans (List.suffix_cons c cs).isInfix)

theorem removeFirst_first_occurrence (pat pre post : List Char)
    (h : ¬ pat <:+: (pre ++ pat.dropLast)) :
    removeFirst pat (pre ++ pat ++ post) = pre ++ post := by
  induction pre with
  | nil => simpa using removeFirst_prefix pat post
  | cons c pre ih =>
    have hne : pat ≠ [] := by
      rintro rfl
      exact h List.nil_infix
    have hlen : pat.length ≤ (c :: pre ++ pat.dropLast).length := by
      have := List.length_pos.mpr hne
      simp only [List.length_append, List.length_cons, List.length_dropLast]
      omega
    have hp : ¬ pat.isPrefixOf (c :: pre ++ pat ++ post) = true := by
      rw [List.isPrefixOf_iff_prefix]
      intro hpre
      apply h
      have hsplit : c :: pre ++ pat ++ post
          = (c :: pre ++ pat.dropLast) ++ ([pat.getLast hne] ++ post) := by
        conv_lhs => rw [← List.dropLast_append_getLast hne]
        simp
      rw [hsplit, List.prefix_iff_eq_take, List.take_append_of_le_length hlen,
        ← List.prefix_iff_eq_take] at hpre
      exact hpre.isInfix
    have hstep : removeFirst pat (c :: pre ++ pat ++ post)
        = c :: removeFirst pat (pre ++ pat ++ post) := by
      show removeFirst pat (c :: (pre ++ pat ++ post)) = _
      rw [removeFirst, if_neg (by simpa using hp)]
    rw [hstep, ih]
    · rfl
    · intro hin
      exact h (hin.trans (List.suffix_cons c _).isInfix)

/-- Where `refs/heads/` first occurs after a piece `pre` of the ref, the
replacement removes it there. -/
theorem replaceFirstWithEmpty_first_occurrence (pre post : String)
    (hno : ¬ occursIn "refs/heads/" (pre ++ "refs/heads")) :
    replaceFirstWithEmpty (pre ++ "refs/heads/" ++ post) "refs/heads/" = pre ++ post := by
  have := removeFirst_first_occurrence "refs/heads/".data pre.data post.data
    (by simpa [occursIn] using hno)
  unfold replaceFirstWithEmpty
  rw [String.data_append, String.data_append, this]
  exact String.ext (by simp)

/-- C9 fails as stated: for a ref that does not start with `refs/heads/` but
holds it further on, the branch is not the ref unchanged; and a payload whose
ref is the empty string is answered 400 and triggers no deploy request. -/
theorem webhook_branch_not_prefix_strip :
    deployPosts (webhookRun ⟨some ⟨some "u", some "blog"⟩, some "refs/tags/refs/heads/main"⟩
        none) =
      [⟨some "blog.blackroad.io", some "u", some "refs/tags/main", none, none⟩] ∧
    webhookRun ⟨some ⟨some "u", some "blog"⟩, some ""⟩ none =
      [Effect.respond 400
        [("success", JVal.bool false), ("error", JVal.str "Invalid webhook payload")]] := by
  decide

/-- C9, amended: for a payload that carries a repository and a non-empty ref,
the handler logs, schedules its callback and answers 200 with `success:true`
before anything is posted, whatever the outcome of the deploy request.  The
callback posts one deploy request with `repo_url` the repository's
`clone_url`, `domain` the repository's name followed by `.blackroad.io`, and
`branch` the result of `ref.replace('refs/heads/', '')`: the remainder of the
ref when the ref starts with `refs/heads/`, the ref unchanged when the ref does
not contain `refs/heads/`. -/
theorem webhook_triggers_deploy (repository : Repository) (ref : String)
    (posted : Option String) (href : ref ≠ "") :
    (webhook ⟨some repository, some ref⟩).trace =
      [Effect.console Level.log
        ["🔔 GitHub webhook received: " ++ jsStr repository.clone_url ++ " (" ++
          replaceFirstWithEmpty ref "refs/heads/" ++ ")"],
        Effect.setTimeout
          ⟨repository, repository.clone_url, replaceFirstWithEmpty ref "refs/heads/"⟩ 100,
        Effect.respond 200
          [("success", JVal.bool true), ("message", JVal.str "Webhook received")]] ∧
    responses (webhookRun ⟨some repository, some ref⟩ posted) =
      [(200, [("success", JVal.bool true), ("message", JVal.str "Webhook received")])] ∧
    deployPosts (beforeResponse (webhookRun ⟨some repository, some ref⟩ posted)) = [] ∧
    deployPosts (webhookRun ⟨some repository, some ref⟩ posted) =
      [⟨some (jsStr repository.name ++ ".blackroad.io"), repository.clone_url,
        some (replaceFirstWithEmpty ref "refs/heads/"), none, none⟩] ∧
    (∀ rest, ref = "refs/heads/" ++ rest →
      replaceFirstWithEmpty ref "refs/heads/" = rest) ∧
    (¬ occursIn "refs/heads/" ref → replaceFirstWithEmpty ref "refs/heads/" = ref) := by
  have hv : truthy (some ref) = true := by simp [truthy, href]
  have hw : (webhook ⟨some repository, some ref⟩).trace =
      [Effect.console Level.log
        ["🔔 GitHub webhook received: " ++ jsStr repository.clone_url ++ " (" ++
          replaceFirstWithEmpty ref "refs/heads/" ++ ")"],
        Effect.setTimeout
          ⟨repository, repository.clone_url, replaceFirstWithEmpty ref "refs/heads/"⟩ 100,
        Effect.respond 200
          [("success", JVal.bool true), ("message", JVal.str "Webhook received")]] := by
    simp [webhook, hv, emit, bind, Act.bind, jsStr]
  refine ⟨hw, ?_, ?_, ?_, ?_, ?_⟩
  · rcases posted with _ | m <;>
    simp [webhookRun, hw, scheduled, webhookCallback, axiosPost, emit, tryCatch, Act.tryCatch,
      tryCatchThe, MonadExcept.tryCatch, responses]
  · rcases posted with _ | m <;>
    simp [webhookRun, hw, scheduled, webhookCallback, axiosPost, emit, tryCatch, Act.tryCatch,
      tryCatchThe, MonadExcept.tryCatch, beforeResponse, deployPosts, List.takeWhile_cons]
  · rcases posted with _ | m <;> rcases hc : repository.clone_url with _ | u <;>
    simp [webhookRun, hw, scheduled, webhookCallback, axiosPost, emit, tryCatch, Act.tryCatch,
      tryCatchThe, MonadExcept.tryCatch, deployPosts, DeployRequest.ofBody, Body.field,
      optField, hc]
  · rintro rest rfl
    unfold replaceFirstWithEmpty
    rw [String.data_append, removeFirst_prefix]
  · intro hno
    simp [replaceFirstWithEmpty, removeFirst_of_not_infix _ _ hno]

/-- C9 (amended) at the payload of the spec's Scenario D. -/
theorem webhook_triggers_deploy_witness :
    deployPosts (webhookRun ⟨some ⟨some "u", some "blog"⟩, some "refs/heads/main"⟩ none) =
      [⟨some "blog.blackroad.io", some "u",
        some (replaceFirstWithEmpty "refs/heads/main" "refs/heads/"), none, none⟩] :=
  (webhook_triggers_deploy ⟨some "u", some "blog"⟩ "refs/heads/main" none
    (by decide)).2.2.2.1

end RoadDeploy
